import Mathlib

/-!
Verification of the fxfer resumable file-transfer engine and its S3
multipart destination.  Definitions are shallow embeddings of the Go
sources: `storage/s3/destination.go` (destination engine, part-size
solver, upload loop, finalize), the S3 part producer, `transfer.go`
(orchestrator retry / source-change logic) and
`internal/iometer/reader.go` (counting reader).
-/

namespace Fxfer

/-- Size-related configuration of the S3 destination
(`Destination` struct fields, `storage/s3/destination.go`). -/
structure DestConfig where
  maxObjectSize : Nat
  minPartSize : Nat
  maxPartSize : Nat
  preferredPartSize : Nat
  maxMultipartParts : Nat
deriving Repr, DecidableEq

/-- The reference constants installed by `NewDestination`:
5 TiB / 5 MiB / 5 GiB / 50 MiB / 10000. -/
def referenceDest : DestConfig :=
  { maxObjectSize := 5 * 1024 * 1024 * 1024 * 1024
    minPartSize := 5 * 1024 * 1024
    maxPartSize := 5 * 1024 * 1024 * 1024
    preferredPartSize := 50 * 1024 * 1024
    maxMultipartParts := 10000 }

/-- The `optimalPartSize` local of `Destination.calcOptimalPartSize`
(destination.go:551-585): the four-way `switch` choosing the part size.
Sizes are non-negative `int64` values in Go, embedded as `Nat`; Go's
integer division on non-negative operands is `Nat` division. -/
def optSel (d : DestConfig) (size : Nat) : Nat :=
  if size ≤ d.preferredPartSize then d.preferredPartSize
  else if size ≤ d.preferredPartSize * d.maxMultipartParts then d.preferredPartSize
  else if size % d.maxMultipartParts = 0 then size / d.maxMultipartParts
  else size / d.maxMultipartParts + 1

/-- `Destination.calcOptimalPartSize` (destination.go:550-592): the selector
followed by the `optimalPartSize > d.MaxPartSize` error guard. -/
def calcOptimalPartSize (d : DestConfig) (size : Nat) : Except String Nat :=
  if d.maxPartSize < optSel d size then
    Except.error "calcOptimalPartSize: optimalPartSize must exceed MaxPartSize"
  else Except.ok (optSel d size)

/-- Ceiling division helper used to state the part-count bound. -/
def ceilDiv (a b : Nat) : Nat := (a + b - 1) / b

/-- One recorded part of the S3 multipart upload (`s3Part`,
destination.go:148-153).  Part numbers are small positive `int32` values,
embedded as `Nat`. -/
structure S3Part where
  number : Nat
  size : Nat
  etag : String
deriving Repr, DecidableEq

/-- The persisted manifest fields the engine reads and writes
(`xferfile.Info`), restricted to what the claims mention.  `isSinglePart`
stands for `metadata[isSinglePartMeta] == "true"`; times are absolute
instants as `Int` (Go `time.Time.Equal` compares instants and `UTC()` does
not change the instant; the zero time is `0`). -/
structure Info where
  size : Nat
  modTime : Int
  startTime : Int
  finishTime : Int
  offset : Nat
  isSinglePart : Bool
deriving Repr, DecidableEq

/-- Durable S3-side state of one destination file: the persisted info
object, the parts recorded in the multipart upload, the object stored at
`multipartKey` (the carried incomplete part, bytes as `Nat`), and whether
the multipart upload has been completed (after which `ListParts` fails
with `NoSuchUpload` and `setInternalInfo` reports `offset = size`). -/
structure DestState where
  info : Info
  parts : List S3Part
  incompleteObj : Option (List Nat)
  completed : Bool
deriving Repr, DecidableEq

/-- Sum of the sizes of recorded parts. -/
def partsSizeSum (ps : List S3Part) : Nat := (ps.map S3Part.size).sum

/-- Content length of the incomplete-part object
(`headIncompletePartForUpload`: 0 when the object does not exist). -/
def incompleteSize (st : DestState) : Nat := (st.incompleteObj.map List.length).getD 0

/-- Manifest information produced by `Destination.GetFileInfo` via
`s3Upload.setInternalInfo` (destination.go:834-955): the offset is the sum
of all completed part sizes plus the incomplete-part size; when the
multipart upload no longer exists (`NoSuchUpload` after completion) the
offset is set to the size. -/
def getFileInfo (st : DestState) : Info :=
  if st.completed then { st.info with offset := st.info.size }
  else { st.info with offset := partsSizeSum st.parts + incompleteSize st }

/-- `Destination.CreateFile` (destination.go:263-327): rejects
`size > MaxObjectSize`, starts a fresh multipart upload with no parts and
no incomplete-part object, and records `isSinglePart = (size ≤ MinPartSize)`
in the manifest metadata. -/
def createFile (d : DestConfig) (size : Nat) (modTime startTime : Int) :
    Except String DestState :=
  if d.maxObjectSize < size then
    Except.error "file size exceeds maximum object size"
  else
    Except.ok
      { info := { size := size, modTime := modTime, startTime := startTime,
                  finishTime := 0, offset := 0,
                  isSinglePart := decide (size ≤ d.minPartSize) }
        parts := [], incompleteObj := none, completed := false }

/-- `s3PartProducer.produce`/`nextPart` (part producer file, lines 52-143):
repeatedly copy up to `partSize` bytes of the stream into a chunk; a
zero-byte copy ends production without emitting a chunk.  The tempfile and
in-memory variants produce the same chunk boundaries. -/
def produceChunks (partSize : Nat) (src : List Nat) : List (List Nat) :=
  if partSize = 0 ∨ src = [] then []
  else src.take partSize :: produceChunks partSize (src.drop partSize)
termination_by src.length
decreasing_by
  rename_i h
  push_neg at h
  have hlen : 0 < src.length := List.length_pos.2 h.2
  simp only [List.length_drop]
  omega

/-- Loop state of `s3Upload.uploadParts` (destination.go:635-739): recorded
parts, the object currently stored at `multipartKey`, bytes consumed so
far, and the next part number.  Etags are values produced by S3 and are
modeled by the empty string, which no claim inspects. -/
structure UploadState where
  parts : List S3Part
  incompleteObj : Option (List Nat)
  bytesUploaded : Nat
  nextPartNum : Nat
deriving Repr, DecidableEq

/-- One iteration of the upload loop body (destination.go:660-732) for one
chunk received from the producer: with
`isFinalChunk = (size == offset + bytesUploaded + partSize)` and the
manifest's `isSinglePart` flag, the chunk is uploaded as part
`nextPartNum` when `partSize >= MinPartSize || isFinalChunk ||
isSinglePart`, otherwise it is written to `multipartKey` as the new
incomplete part; `bytesUploaded += partSize` and `nextPartNum++` happen on
both branches. -/
def uploadStep (minPartSize : Nat) (size offset : Int) (isSinglePart : Bool)
    (st : UploadState) (chunk : List Nat) : UploadState :=
  let partSize := chunk.length
  if minPartSize ≤ partSize ∨ size = offset + st.bytesUploaded + partSize ∨
      isSinglePart then
    { st with
      parts := st.parts ++ [S3Part.mk st.nextPartNum partSize ""],
      bytesUploaded := st.bytesUploaded + partSize,
      nextPartNum := st.nextPartNum + 1 }
  else
    { st with
      incompleteObj := some chunk,
      bytesUploaded := st.bytesUploaded + partSize,
      nextPartNum := st.nextPartNum + 1 }

/-- The `for` loop of `uploadParts` over the producer's chunk sequence. -/
def uploadChunksLoop (minPartSize : Nat) (size offset : Int) (isSinglePart : Bool)
    (st : UploadState) (chunks : List (List Nat)) : UploadState :=
  chunks.foldl (uploadStep minPartSize size offset isSinglePart) st

/-- Initial loop state of `uploadParts` (destination.go:646-647):
`numParts := len(parts)`, `nextPartNum := numParts + 1`. -/
def initUpload (parts0 : List S3Part) (inc0 : Option (List Nat)) : UploadState :=
  ⟨parts0, inc0, 0, parts0.length + 1⟩

/-- `Destination.TransferFileChunk` (destination.go:329-387), pure data flow
of the success path.  When the stored manifest records an incomplete part
of size `k > 0`, that object is downloaded, deleted from the destination,
its bytes are prepended to the input stream (`io.MultiReader`) and the
working offset is decremented by `k`; the chunks produced from the
resulting stream feed the upload loop; the returned count is
`max(bytesUploaded - incompletePartSize, 0)`, which on `Nat` is truncated
subtraction.  The `info.Offset`/`info.Size` mutation at
destination.go:382-385 is on the per-call `s3Upload` struct and is never
persisted (`writeInfo` is not called here), so the durable manifest is
unchanged. -/
def transferFileChunk (d : DestConfig) (st : DestState) (input : List Nat)
    (offset : Int) : Except String (DestState × Nat) :=
  let k := incompleteSize st
  let stage : DestState × List Nat × Int :=
    if 0 < k then
      ⟨{ st with incompleteObj := none }, st.incompleteObj.getD [] ++ input,
        offset - (k : Int)⟩
    else ⟨st, input, offset⟩
  match calcOptimalPartSize d st.info.size with
  | Except.error e => Except.error e
  | Except.ok optimalPartSize =>
    let ust := uploadChunksLoop d.minPartSize (st.info.size : Int) stage.2.2
      st.info.isSinglePart (initUpload stage.1.parts stage.1.incompleteObj)
      (produceChunks optimalPartSize stage.2.1)
    Except.ok ({ stage.1 with parts := ust.parts, incompleteObj := ust.incompleteObj },
      ust.bytesUploaded - k)

/-- The behavior `TransferFileChunk` is claimed to have when a non-empty
incomplete part is carried over, written from the spec's words: prepend
the carried bytes to the reader, delete the carried object, decrement the
offset by its size, then run the upload loop and return the clamped
difference.  Compared against `transferFileChunk` below. -/
def carryExpected (d : DestConfig) (st : DestState) (input : List Nat)
    (offset : Int) (p : Nat) : DestState × Nat :=
  let k := incompleteSize st
  let src := st.incompleteObj.getD [] ++ input
  let ust := uploadChunksLoop d.minPartSize (st.info.size : Int) (offset - (k : Int))
    st.info.isSinglePart (initUpload st.parts none) (produceChunks p src)
  ({ st with parts := ust.parts, incompleteObj := ust.incompleteObj },
    ust.bytesUploaded - k)

/-- Outcome record of `Destination.FinalizeTransfer` (destination.go:389-453):
the durable state afterwards, whether `CompleteMultipartUpload` was called
and with which part numbers in which order, whether the empty part was
first uploaded, and the returned error. -/
structure FinalizeOutcome where
  newState : DestState
  completedCalled : Bool
  completedPartNumbers : List Nat
  uploadedZeroPart : Bool
  err : Option String
deriving Repr, DecidableEq

/-- The local `parts` slice of `FinalizeTransfer` (destination.go:403-424):
the recorded parts, or a single 0-byte part number 1 when none exist.  The
etag of that part is produced by S3 and modeled by a constant. -/
def paddedParts (st : DestState) : List S3Part :=
  if st.parts.isEmpty then [S3Part.mk 1 0 "zero-byte-part-etag"] else st.parts

/-- `Destination.FinalizeTransfer` (destination.go:389-453): when no parts
are recorded, a single 0-byte part number 1 is first uploaded (AWS expects
at least one part); the completed-part list passed to
`CompleteMultipartUpload` is `lo.Map` over the recorded parts, preserving
their order — no sorting is performed; `ErrFileOrObjectCannotFinalize` is
returned when `totalPartSize ≠ info.Size`, before
`CompleteMultipartUpload` and without re-persisting the manifest; on
success the manifest is re-persisted (`writeInfo`) with `offset = size`
and `finishTime = now`, and the multipart upload ceases to exist. -/
def finalizeTransfer (now : Int) (st : DestState) : FinalizeOutcome :=
  let parts := paddedParts st
  if partsSizeSum parts ≠ st.info.size then
    { newState := { st with parts := parts }
      completedCalled := false
      completedPartNumbers := []
      uploadedZeroPart := st.parts.isEmpty
      err := some "file or object cannot finalize, please retry" }
  else
    { newState := { st with
        parts := parts, completed := true,
        info := { st.info with offset := st.info.size, finishTime := now } }
      completedCalled := true
      completedPartNumbers := parts.map S3Part.number
      uploadedZeroPart := st.parts.isEmpty
      err := none }

/-- `s3Upload.listAllParts` (destination.go:957-985): the pages of a
paginated `ListParts` are appended in the order received, and each page's
parts are appended in the page's order.  No sorting is performed. -/
def listAllParts (pages : List (List S3Part)) : List S3Part :=
  pages.foldl (fun acc page => acc ++ page) []

/-- Destination states reachable through the engine's operations:
creation; a successful `TransferFileChunk` called — as the orchestrator
does — with `offset = destInfo.Offset` and an input stream obtained from
`GetFileFromOffset` on an unchanged source, which therefore delivers at
most `size - offset` bytes; and `FinalizeTransfer`.  Transfers and
finalization are only attempted while the upload is not yet completed (the
orchestrator returns early once `offset == size` with a non-zero finish
time).  `DeleteFile` removes all destination state; the next creation is
covered by `created`. -/
inductive Reachable (d : DestConfig) : DestState → Prop
  | created {size : Nat} {modTime startTime : Int} {st : DestState}
      (h : createFile d size modTime startTime = Except.ok st) : Reachable d st
  | chunk {st st2 : DestState} {input : List Nat} {n : Nat}
      (hst : Reachable d st) (hnc : st.completed = false)
      (hlen : partsSizeSum st.parts + incompleteSize st + input.length ≤ st.info.size)
      (h : transferFileChunk d st input ((getFileInfo st).offset : Int) =
        Except.ok (st2, n)) :
      Reachable d st2
  | finalize {st : DestState} {now : Int}
      (hst : Reachable d st) (hnc : st.completed = false) :
      Reachable d (finalizeTransfer now st).newState

/-- Go error values relevant to `transfer.go`: the `context.Canceled` and
`storage.ErrFileOrObjectCannotFinalize` sentinels, the package-private
`errRetryable` sentinel, other errors, and `errors.Join`. -/
inductive GoErr where
  | canceled
  | cannotFinalize
  | retryableTag
  | other (msg : String)
  | join (a b : GoErr)
deriving Repr, DecidableEq

/-- `errors.Is(e, target)` for the sentinel targets above: a joined error
matches when either branch matches; a sentinel matches itself. -/
def errIs : GoErr → GoErr → Bool
  | GoErr.join a b, t => errIs a t || errIs b t
  | e, t => e == t

/-- Outcome of the two fallible calls of one attempt in
`transfer.processResumableTransfer` (transfer.go:187-220):
`TransferFileChunk` failed with `e`, `FinalizeTransfer` failed with `e`,
or both succeeded. -/
inductive AttemptOutcome where
  | success
  | chunkFailed (e : GoErr)
  | finalizeFailed (e : GoErr)
deriving Repr, DecidableEq

/-- What one attempt returns to the retry wrapper, and whether it called
`destination.DeleteFile`. -/
structure AttemptResult where
  returnedErr : Option GoErr
  deleteCalled : Bool
deriving Repr, DecidableEq

/-- Error handling of `transfer.processResumableTransfer`
(transfer.go:187-220).  `transferred` is
`proxy.transferReader.TransferredSize()` and `srcSize` is
`srcInfo.Size`.  A chunk failure that `errors.Is` `context.Canceled`
is swallowed; any other chunk failure is returned joined with
`errRetryable`; a finalize failure matching `CannotFinalize` is joined
with `errRetryable` when `transferred < srcSize` and otherwise triggers
`DeleteFile` and is returned untagged (whether or not the delete itself
fails); other finalize failures are returned untagged. -/
def processOutcome (srcSize transferred : Int) : AttemptOutcome → AttemptResult
  | AttemptOutcome.success => ⟨none, false⟩
  | AttemptOutcome.chunkFailed e =>
      if errIs e GoErr.canceled then ⟨none, false⟩
      else ⟨some (GoErr.join e GoErr.retryableTag), false⟩
  | AttemptOutcome.finalizeFailed e =>
      if errIs e GoErr.cannotFinalize then
        if transferred < srcSize then ⟨some (GoErr.join e GoErr.retryableTag), false⟩
        else ⟨some e, true⟩
      else ⟨some e, false⟩

/-- The `retry.RetryIf` predicate of `transfer.Transfer`
(transfer.go:106-108): retry exactly when the attempt's error
`errors.Is` `errRetryable`. -/
def shouldRetry : Option GoErr → Bool
  | none => false
  | some e => errIs e GoErr.retryableTag

/-- Actions `transfer.verifyFileChanges` performs on the destination. -/
inductive DestAction where
  | deleteFile
  | createFile (size : Nat) (modTime : Int)
  | getInfo
deriving Repr, DecidableEq

/-- `transfer.verifyFileChanges` (transfer.go:265-293):
`srcInfo.ModTime.UTC().Equal(destInfo.ModTime.UTC())` compares absolute
instants, embedded as `Int` equality.  When equal, the destination is
untouched and the previously read info is returned; otherwise the
destination file is deleted, re-created with the source's current size
and modTime, and the info re-read. -/
def verifyFileChanges (d : DestConfig) (srcSize : Nat) (srcModTime startTime : Int)
    (st : DestState) : Except String (DestState × Info × List DestAction) :=
  if srcModTime = st.info.modTime then
    Except.ok (st, getFileInfo st, [])
  else
    match createFile d srcSize srcModTime startTime with
    | Except.error e => Except.error e
    | Except.ok st2 =>
        Except.ok (st2, getFileInfo st2,
          [DestAction.deleteFile, DestAction.createFile srcSize srcModTime,
            DestAction.getInfo])

/-- Filesystem effect and returned error of the tempfile-mode
`closeReader` built by `s3PartProducer.nextPart` (part producer file,
lines 103-116): `file.Close()` whose duplicate-close `os.ErrClosed` error
is suppressed, followed by `os.Remove(file.Name())` whose result is
returned unconditionally — and `os.Remove` of an already-removed file
fails with a not-exist path error.  Input: whether the backing tempfile
still exists; output: whether it exists afterwards, and the returned
error. -/
def chunkCloseTempfile (fileExists : Bool) : Bool × Option String :=
  if fileExists then (false, none)
  else (false, some "remove: no such file or directory")

/-- One read result of the reader wrapped by `iometer.TransferReader`:
`n` bytes plus an optional non-nil Go error (`io.EOF` included). -/
structure ReadOutcome where
  n : Nat
  err : Option String
deriving Repr, DecidableEq

/-- Effect of `TransferReader.Read` (internal/iometer/reader.go:41-58) on
the shared counter: a non-nil error from the underlying reader returns
before the `atomic.AddInt64`, leaving the counter unchanged even when
`n > 0`; otherwise `n` is added (guarded by `n > 0`, which is
size-neutral).  The rate-limiter branch adds the same count when its wait
succeeds. -/
def transferReadCounter (counter : Int) (r : ReadOutcome) : Int :=
  match r.err with
  | some _ => counter
  | none => if 0 < r.n then counter + r.n else counter

/-- Counter after a sequence of reads, starting from `counter`
(`TransferredSize` loads exactly this value). -/
def runReads (counter : Int) (rs : List ReadOutcome) : Int :=
  rs.foldl transferReadCounter counter

/-- Total byte count of the error-free reads of a sequence. -/
def countedBytes (rs : List ReadOutcome) : Nat :=
  ((rs.filter fun r => r.err.isNone).map ReadOutcome.n).sum

/-- Content length of an optional stored object. -/
def optLen (o : Option (List Nat)) : Nat := (o.map List.length).getD 0

/-- Constants of the spec's scenario S3 (resume with prepend):
`MinPartSize = PreferredPartSize = 4`, `MaxPartSize = 8`. -/
def scenarioCarryCfg : DestConfig :=
  { maxObjectSize := 1000000, minPartSize := 4, maxPartSize := 8,
    preferredPartSize := 4, maxMultipartParts := 10000 }

/-- Destination state of scenario S3: manifest size 5, no parts yet, a
3-byte incomplete part holding "123". -/
def scenarioCarryState : DestState :=
  { info := { size := 5, modTime := 0, startTime := 0, finishTime := 0,
              offset := 3, isSinglePart := false }
    parts := [], incompleteObj := some [49, 50, 51], completed := false }

/-- Two pages of a paginated `ListParts` whose concatenation is not in
ascending part-number order. -/
def unorderedPages : List (List S3Part) :=
  [[S3Part.mk 2 1 "b"], [S3Part.mk 1 1 "a"]]

/-- A destination state whose recorded parts come from `unorderedPages`
and whose part sizes sum to the manifest size, so finalization calls
`CompleteMultipartUpload`. -/
def unorderedFinalizeState : DestState :=
  { info := { size := 2, modTime := 0, startTime := 0, finishTime := 0,
              offset := 2, isSinglePart := false }
    parts := listAllParts unorderedPages, incompleteObj := none, completed := false }

/-- A destination state ready to finalize: one part of 2 bytes matching
the manifest size 2. -/
def finalizeOkState : DestState :=
  { info := { size := 2, modTime := 0, startTime := 0, finishTime := 0,
              offset := 2, isSinglePart := false }
    parts := [S3Part.mk 1 2 "a"], incompleteObj := none, completed := false }

/-- The state `CreateFile` produces under the reference constants for a
10-byte source (used to exhibit a reachable state). -/
def createdExample : DestState :=
  { info := { size := 10, modTime := 0, startTime := 0, finishTime := 0,
              offset := 0, isSinglePart := decide (10 ≤ referenceDest.minPartSize) }
    parts := [], incompleteObj := none, completed := false }

end Fxfer

namespace Fxfer

theorem optSel_ref_bounds (size : Nat) :
    referenceDest.minPartSize ≤ optSel referenceDest size ∧
      size ≤ referenceDest.maxMultipartParts * optSel referenceDest size ∧
      (size ≤ referenceDest.maxObjectSize →
        optSel referenceDest size ≤ referenceDest.maxPartSize) := by
  simp only [optSel, referenceDest]
  split_ifs with h1 h2 h3 <;> refine ⟨by omega, by omega, fun h => by omega⟩

theorem optSel_ref_err_iff (size : Nat) :
    referenceDest.maxPartSize < optSel referenceDest size ↔
      referenceDest.maxPartSize * referenceDest.maxMultipartParts < size := by
  simp only [optSel, referenceDest]
  split_ifs with h1 h2 h3 <;> omega

theorem ceilDiv_le_of_le_mul {k p n : Nat} (hp : 0 < p) (h : n ≤ k * p) :
    ceilDiv n p ≤ k := by
  unfold ceilDiv
  refine (Nat.div_le_iff_le_mul_add_pred hp).2 ?_
  have : k * p = p * k := Nat.mul_comm k p
  omega

/-- C3: under the reference constants, every `size` in `[0, MaxObjectSize]`
yields a part size `p` with `MinPartSize ≤ p ≤ MaxPartSize` and
`ceil(size / p) ≤ MaxMultipartParts`; and the solver errors exactly when
`size > MaxPartSize * MaxMultipartParts` (hence never inside the range). -/
theorem calcOptimalPartSize_spec (size : Nat) :
    (size ≤ referenceDest.maxObjectSize →
      ∃ p, calcOptimalPartSize referenceDest size = Except.ok p ∧
        referenceDest.minPartSize ≤ p ∧ p ≤ referenceDest.maxPartSize ∧
        ceilDiv size p ≤ referenceDest.maxMultipartParts) ∧
    ((∃ e, calcOptimalPartSize referenceDest size = Except.error e) ↔
      referenceDest.maxPartSize * referenceDest.maxMultipartParts < size) := by
  obtain ⟨hmin, hmul, hmax⟩ := optSel_ref_bounds size
  constructor
  · intro hobj
    have hnoerr : ¬ referenceDest.maxPartSize < optSel referenceDest size :=
      not_lt.2 (hmax hobj)
    refine ⟨optSel referenceDest size, ?_, hmin, hmax hobj, ?_⟩
    · simp [calcOptimalPartSize, hnoerr]
    · exact ceilDiv_le_of_le_mul (lt_of_lt_of_le (by norm_num [referenceDest]) hmin) hmul
  · constructor
    · rintro ⟨e, he⟩
      by_cases hc : referenceDest.maxPartSize < optSel referenceDest size
      · exact (optSel_ref_err_iff size).1 hc
      · simp [calcOptimalPartSize, hc] at he
    · intro h
      exact ⟨"calcOptimalPartSize: optimalPartSize must exceed MaxPartSize",
        by simp [calcOptimalPartSize, (optSel_ref_err_iff size).2 h]⟩

/-- Witness for `calcOptimalPartSize_spec` at `size = MaxObjectSize` (5 TiB). -/
theorem calcOptimalPartSize_spec_witness :
    ∃ p, calcOptimalPartSize referenceDest 5497558138880 = Except.ok p ∧
      referenceDest.minPartSize ≤ p ∧ p ≤ referenceDest.maxPartSize ∧
      ceilDiv 5497558138880 p ≤ referenceDest.maxMultipartParts :=
  (calcOptimalPartSize_spec 5497558138880).1 (by decide)

theorem runReads_cons (c : Int) (r : ReadOutcome) (rs : List ReadOutcome) :
    runReads c (r :: rs) = runReads (transferReadCounter c r) rs := rfl

theorem runReads_append (c : Int) (a b : List ReadOutcome) :
    runReads c (a ++ b) = runReads (runReads c a) b := by
  simp [runReads, List.foldl_append]

theorem le_transferReadCounter (c : Int) (r : ReadOutcome) :
    c ≤ transferReadCounter c r := by
  cases h : r.err with
  | some e => simp [transferReadCounter, h]
  | none =>
      simp only [transferReadCounter, h]
      split_ifs with hn <;> omega

theorem countedBytes_cons (r : ReadOutcome) (rs : List ReadOutcome) :
    countedBytes (r :: rs) = (if r.err.isNone then r.n else 0) + countedBytes rs := by
  unfold countedBytes
  rw [List.filter_cons]
  split_ifs with h <;> simp

theorem le_runReads (c : Int) (rs : List ReadOutcome) : c ≤ runReads c rs := by
  induction rs generalizing c with
  | nil => exact le_refl c
  | cons r rs ih =>
      rw [runReads_cons]
      exact le_trans (le_transferReadCounter c r) (ih _)

theorem runReads_eq_add (c : Int) (rs : List ReadOutcome) :
    runReads c rs = c + countedBytes rs := by
  induction rs generalizing c with
  | nil => simp [runReads, countedBytes]
  | cons r rs ih =>
      rw [runReads_cons, ih, countedBytes_cons]
      cases h : r.err with
      | some e => simp [transferReadCounter, h]
      | none =>
          simp only [transferReadCounter, h, Option.isNone_none, if_true]
          split_ifs with hn
          · push_cast
            ring
          · have h0 : r.n = 0 := by omega
            simp [h0]

/-- C10: `TransferReader.Read` adds exactly `n` to the shared counter when
the underlying reader returns `(n, nil)` and leaves it unchanged on any
non-nil error — including a final `(n > 0, io.EOF)` read, whose bytes are
delivered but never counted — so `TransferredSize` equals the initial
value plus the byte counts of the error-free reads, and is monotonically
non-decreasing along the read sequence. -/
theorem transferReader_spec (init : Int) (rs : List ReadOutcome) :
    runReads init rs = init + countedBytes rs ∧
    (∀ c n, transferReadCounter c ⟨n, none⟩ = c + n) ∧
    (∀ c n e, transferReadCounter c ⟨n, some e⟩ = c) ∧
    (∀ n e, runReads init (rs ++ [⟨n, some e⟩]) = runReads init rs) ∧
    (∀ i j, i ≤ j → runReads init (rs.take i) ≤ runReads init (rs.take j)) := by
  refine ⟨runReads_eq_add init rs, ?_, ?_, ?_, ?_⟩
  · intro c n
    show (if 0 < n then c + (n : Int) else c) = c + n
    split_ifs with h <;> omega
  · intro c n e
    rfl
  · intro n e
    rw [runReads_append]
    rfl
  · intro i j hij
    rw [show j = i + (j - i) by omega, List.take_add, runReads_append]
    exact le_runReads _ _

/-- Witness for `transferReader_spec`: three reads, the middle one an
`io.EOF` carrying 2 bytes which stay uncounted. -/
theorem transferReader_spec_witness :
    runReads 0 [⟨3, none⟩, ⟨2, some "EOF"⟩, ⟨4, none⟩] =
      0 + countedBytes [⟨3, none⟩, ⟨2, some "EOF"⟩, ⟨4, none⟩] ∧
    runReads 0 ([⟨3, none⟩, ⟨2, some "EOF"⟩, ⟨4, none⟩].take 1) ≤
      runReads 0 ([⟨3, none⟩, ⟨2, some "EOF"⟩, ⟨4, none⟩].take 2) :=
  ⟨(transferReader_spec 0 [⟨3, none⟩, ⟨2, some "EOF"⟩, ⟨4, none⟩]).1,
    (transferReader_spec 0 [⟨3, none⟩, ⟨2, some "EOF"⟩, ⟨4, none⟩]).2.2.2.2 1 2
      (by decide)⟩

/-- C9: evaluation of the tempfile-mode `closeReader` at the failing
input.  The first close deletes the backing tempfile and succeeds; a
second close of the same chunk has no further filesystem effect but
returns a non-nil error (the `os.Remove` not-exist failure), contradicting
the claimed idempotency and the producer's own comment that duplicate
close errors are ignored on purpose. -/
theorem chunkClose_second_call_errors :
    chunkCloseTempfile true = (false, none) ∧
    (chunkCloseTempfile (chunkCloseTempfile true).1).1 = false ∧
    (chunkCloseTempfile (chunkCloseTempfile true).1).2 ≠ none := by
  refine ⟨rfl, rfl, ?_⟩
  intro h
  simp [chunkCloseTempfile] at h

/-- C7: the retry wrapper retries exactly the attempts whose returned
error carries the `errRetryable` tag, and exactly these failures are so
tagged: a `TransferFileChunk` failure that is not a context cancellation,
and a `FinalizeTransfer` failure matching `CannotFinalize` with
`transferred < srcSize`; a `CannotFinalize` failure with
`transferred ≥ srcSize` triggers `DeleteFile` and is returned untagged.
The hypotheses state that the storage layers never emit the
orchestrator-private `errRetryable` sentinel themselves. -/
theorem retryPolicy_spec (srcSize transferred : Int) :
    (shouldRetry (processOutcome srcSize transferred
        AttemptOutcome.success).returnedErr = false) ∧
    (∀ e, errIs e GoErr.retryableTag = false →
      (shouldRetry (processOutcome srcSize transferred
          (AttemptOutcome.chunkFailed e)).returnedErr = true ↔
        errIs e GoErr.canceled = false)) ∧
    (∀ e, errIs e GoErr.retryableTag = false →
      (shouldRetry (processOutcome srcSize transferred
          (AttemptOutcome.finalizeFailed e)).returnedErr = true ↔
        (errIs e GoErr.cannotFinalize = true ∧ transferred < srcSize))) ∧
    (∀ e, errIs e GoErr.cannotFinalize = true → ¬ transferred < srcSize →
      processOutcome srcSize transferred (AttemptOutcome.finalizeFailed e) =
        ⟨some e, true⟩) := by
  refine ⟨rfl, ?_, ?_, ?_⟩
  · intro e he
    by_cases hc : errIs e GoErr.canceled = true
    · simp [processOutcome, hc, shouldRetry]
    · simp only [Bool.not_eq_true] at hc
      simp [processOutcome, hc, shouldRetry, errIs, he]
  · intro e he
    by_cases hcf : errIs e GoErr.cannotFinalize = true
    · by_cases hlt : transferred < srcSize
      · simp [processOutcome, hcf, hlt, shouldRetry, errIs, he]
      · simp [processOutcome, hcf, hlt, shouldRetry, he]
    · simp only [Bool.not_eq_true] at hcf
      simp [processOutcome, hcf, shouldRetry, he]
  · intro e hcf hlt
    simp [processOutcome, hcf, hlt]

/-- Witness for `retryPolicy_spec`: a `CannotFinalize` failure with all
bytes transferred deletes the destination and is not retried, while the
same failure one byte short is retried. -/
theorem retryPolicy_spec_witness :
    processOutcome 10 10 (AttemptOutcome.finalizeFailed GoErr.cannotFinalize) =
      ⟨some GoErr.cannotFinalize, true⟩ ∧
    (shouldRetry (processOutcome 10 9
        (AttemptOutcome.finalizeFailed GoErr.cannotFinalize)).returnedErr = true ↔
      (errIs GoErr.cannotFinalize GoErr.cannotFinalize = true ∧ (9 : Int) < 10)) :=
  ⟨(retryPolicy_spec 10 10).2.2.2 GoErr.cannotFinalize (by decide) (by decide),
    (retryPolicy_spec 10 9).2.2.1 GoErr.cannotFinalize (by decide)⟩

/-- C8: when the source's modTime (as a UTC instant) differs from the
destination manifest's modTime, the orchestrator deletes the destination
file, re-creates it with the source's current size and modTime and
re-reads the info, whose offset is 0, so the subsequent chunk transfer
starts from offset 0; when the modTimes are equal the destination is left
untouched and the previously read info (with its recorded offset) is
kept. -/
theorem verifyFileChanges_spec (d : DestConfig) (srcSize : Nat)
    (srcModTime startTime : Int) (st : DestState)
    (hsz : srcSize ≤ d.maxObjectSize) :
    (srcModTime = st.info.modTime →
      verifyFileChanges d srcSize srcModTime startTime st =
        Except.ok (st, getFileInfo st, [])) ∧
    (srcModTime ≠ st.info.modTime →
      ∃ st2, verifyFileChanges d srcSize srcModTime startTime st =
          Except.ok (st2, getFileInfo st2,
            [DestAction.deleteFile, DestAction.createFile srcSize srcModTime,
              DestAction.getInfo]) ∧
        (getFileInfo st2).offset = 0 ∧
        st2.info.size = srcSize ∧ st2.info.modTime = srcModTime ∧
        st2.parts = [] ∧ st2.incompleteObj = none) := by
  constructor
  · intro h
    simp [verifyFileChanges, h]
  · intro h
    have hok : createFile d srcSize srcModTime startTime =
        Except.ok
          { info := { size := srcSize, modTime := srcModTime, startTime := startTime,
                      finishTime := 0, offset := 0,
                      isSinglePart := decide (srcSize ≤ d.minPartSize) }
            parts := [], incompleteObj := none, completed := false } := by
      simp [createFile, not_lt.2 hsz]
    refine ⟨{ info := { size := srcSize, modTime := srcModTime, startTime := startTime,
                        finishTime := 0, offset := 0,
                        isSinglePart := decide (srcSize ≤ d.minPartSize) }
              parts := [], incompleteObj := none, completed := false },
      ?_, ?_, rfl, rfl, rfl, rfl⟩
    · simp [verifyFileChanges, h, hok]
    · simp [getFileInfo, partsSizeSum, incompleteSize]

/-- Witness for `verifyFileChanges_spec`: a destination created at
modTime 0 is reset when the source reports modTime 1. -/
theorem verifyFileChanges_spec_witness :
    ∃ st2, verifyFileChanges referenceDest 10 1 5
        { info := { size := 7, modTime := 0, startTime := 0, finishTime := 0,
                    offset := 0, isSinglePart := false }
          parts := [], incompleteObj := none, completed := false } =
        Except.ok (st2, getFileInfo st2,
          [DestAction.deleteFile, DestAction.createFile 10 1, DestAction.getInfo]) ∧
      (getFileInfo st2).offset = 0 ∧
      st2.info.size = 10 ∧ st2.info.modTime = 1 ∧
      st2.parts = [] ∧ st2.incompleteObj = none :=
  (verifyFileChanges_spec referenceDest 10 1 5
    { info := { size := 7, modTime := 0, startTime := 0, finishTime := 0,
                offset := 0, isSinglePart := false }
      parts := [], incompleteObj := none, completed := false }
    (by decide)).2 (by decide)

theorem paddedParts_sum (st : DestState) :
    partsSizeSum (paddedParts st) = partsSizeSum st.parts := by
  unfold paddedParts
  cases hp : st.parts with
  | nil => simp [partsSizeSum]
  | cons a l => simp [partsSizeSum]

theorem finalizeTransfer_eq_of_ok (now : Int) (st : DestState)
    (h : partsSizeSum (paddedParts st) = st.info.size) :
    finalizeTransfer now st =
      { newState := { st with
          parts := paddedParts st, completed := true,
          info := { st.info with offset := st.info.size, finishTime := now } }
        completedCalled := true
        completedPartNumbers := (paddedParts st).map S3Part.number
        uploadedZeroPart := st.parts.isEmpty
        err := none } := by
  simp only [finalizeTransfer]
  rw [if_neg (by simp [h])]

theorem finalizeTransfer_eq_of_ne (now : Int) (st : DestState)
    (h : partsSizeSum (paddedParts st) ≠ st.info.size) :
    finalizeTransfer now st =
      { newState := { st with parts := paddedParts st }
        completedCalled := false
        completedPartNumbers := []
        uploadedZeroPart := st.parts.isEmpty
        err := some "file or object cannot finalize, please retry" } := by
  simp only [finalizeTransfer]
  rw [if_pos h]

/-- C4: `FinalizeTransfer` fails with `CannotFinalize` exactly when the
recorded parts' sizes do not sum to the manifest's size (when no parts
exist a single 0-byte part is first uploaded, keeping the sum at 0); in
the failure case `CompleteMultipartUpload` is not called and the persisted
manifest is unchanged; on success the manifest is re-persisted with
`offset = size` and the non-zero `finishTime` `now`. -/
theorem finalizeTransfer_spec (now : Int) (st : DestState) (hnow : now ≠ 0) :
    ((finalizeTransfer now st).err ≠ none ↔ partsSizeSum st.parts ≠ st.info.size) ∧
    (st.parts = [] → (finalizeTransfer now st).uploadedZeroPart = true) ∧
    ((finalizeTransfer now st).err ≠ none →
      (finalizeTransfer now st).completedCalled = false ∧
      (finalizeTransfer now st).newState.info = st.info) ∧
    ((finalizeTransfer now st).err = none →
      (finalizeTransfer now st).completedCalled = true ∧
      (finalizeTransfer now st).newState.info.offset = st.info.size ∧
      (finalizeTransfer now st).newState.info.finishTime = now ∧
      (finalizeTransfer now st).newState.info.finishTime ≠ 0) := by
  have hps := paddedParts_sum st
  by_cases hc : partsSizeSum st.parts = st.info.size
  · rw [finalizeTransfer_eq_of_ok now st (hps.trans hc)]
    refine ⟨by simp [hc], ?_, by simp, fun _ => ⟨rfl, rfl, rfl, hnow⟩⟩
    intro h
    simp [h]
  · rw [finalizeTransfer_eq_of_ne now st (fun hx => hc (hps.symm.trans hx))]
    refine ⟨by simp [hc], ?_, fun _ => ⟨rfl, rfl⟩, by simp⟩
    intro h
    simp [h]

/-- Witness for `finalizeTransfer_spec`: a matching one-part upload
finalizes with offset 2 and finish time 7. -/
theorem finalizeTransfer_spec_witness :
    ((finalizeTransfer 7 finalizeOkState).err ≠ none ↔
      partsSizeSum finalizeOkState.parts ≠ finalizeOkState.info.size) ∧
    ((finalizeTransfer 7 finalizeOkState).completedCalled = true ∧
      (finalizeTransfer 7 finalizeOkState).newState.info.offset =
        finalizeOkState.info.size ∧
      (finalizeTransfer 7 finalizeOkState).newState.info.finishTime = 7 ∧
      (finalizeTransfer 7 finalizeOkState).newState.info.finishTime ≠ 0) :=
  ⟨(finalizeTransfer_spec 7 finalizeOkState (by decide)).1,
    (finalizeTransfer_spec 7 finalizeOkState (by decide)).2.2.2 (by decide)⟩

/-- C5 counterexample: with recorded parts obtained from a paginated
listing whose concatenation is `[#2, #1]`, finalization calls
`CompleteMultipartUpload` with the part numbers `[2, 1]`, which is not
sorted in ascending order — `FinalizeTransfer` performs no sort. -/
theorem finalize_unsorted_counterexample :
    unorderedFinalizeState.parts = listAllParts unorderedPages ∧
    (finalizeTransfer 7 unorderedFinalizeState).completedCalled = true ∧
    (finalizeTransfer 7 unorderedFinalizeState).completedPartNumbers = [2, 1] ∧
    ¬ List.Sorted (· ≤ ·) (finalizeTransfer 7 unorderedFinalizeState).completedPartNumbers := by
  refine ⟨rfl, by decide, by decide, ?_⟩
  intro hs
  have : (finalizeTransfer 7 unorderedFinalizeState).completedPartNumbers = [2, 1] := by decide
  rw [this] at hs
  have h21 : (2 : Nat) ≤ 1 := List.rel_of_sorted_cons hs 1 (by simp)
  omega

/-- C5 amended: whenever `FinalizeTransfer` calls
`CompleteMultipartUpload`, the part list passed preserves the order of
the recorded parts (or is the single zero part when none were recorded);
a paginated `ListParts` recovery concatenates the pages in order; and the
passed list is ascending whenever the recorded part numbers are
ascending — no sorting is performed. -/
theorem finalize_order_preserving (now : Int) (st : DestState) :
    ((finalizeTransfer now st).completedCalled = true →
      (finalizeTransfer now st).completedPartNumbers =
        (paddedParts st).map S3Part.number) ∧
    (∀ pages : List (List S3Part), listAllParts pages = pages.flatten) ∧
    (List.Sorted (· ≤ ·) (st.parts.map S3Part.number) →
      List.Sorted (· ≤ ·) (finalizeTransfer now st).completedPartNumbers) := by
  have hjoin : ∀ (pages : List (List S3Part)) (acc : List S3Part),
      pages.foldl (fun a p => a ++ p) acc = acc ++ pages.flatten := by
    intro pages
    induction pages with
    | nil => intro acc; simp
    | cons p ps ih => intro acc; simp [List.foldl_cons, ih, List.append_assoc]
  refine ⟨?_, fun pages => by simpa using hjoin pages [], ?_⟩
  · intro hcall
    by_cases hc : partsSizeSum (paddedParts st) = st.info.size
    · rw [finalizeTransfer_eq_of_ok now st hc]
    · rw [finalizeTransfer_eq_of_ne now st hc] at hcall
      exact absurd hcall (by simp)
  · intro hs
    by_cases hc : partsSizeSum (paddedParts st) = st.info.size
    · rw [finalizeTransfer_eq_of_ok now st hc]
      show List.Sorted (· ≤ ·) ((paddedParts st).map S3Part.number)
      unfold paddedParts
      cases hp : st.parts with
      | nil => simp
      | cons a l =>
          rw [hp] at hs
          simpa using hs
    · rw [finalizeTransfer_eq_of_ne now st hc]
      exact List.sorted_nil

/-- Witness for `finalize_order_preserving`: an already-ascending recorded
list passes through in order. -/
theorem finalize_order_preserving_witness :
    (finalizeTransfer 7 finalizeOkState).completedPartNumbers =
      (paddedParts finalizeOkState).map S3Part.number ∧
    List.Sorted (· ≤ ·) (finalizeTransfer 7 finalizeOkState).completedPartNumbers :=
  ⟨(finalize_order_preserving 7 finalizeOkState).1 (by decide),
    (finalize_order_preserving 7 finalizeOkState).2.2 (by decide)⟩

theorem uploadChunksLoop_nextPartNum (m : Nat) (size off : Int) (sp : Bool)
    (st : UploadState) (l : List (List Nat)) :
    (uploadChunksLoop m size off sp st l).nextPartNum = st.nextPartNum + l.length := by
  induction l generalizing st with
  | nil => rfl
  | cons c l ih =>
      have : uploadChunksLoop m size off sp st (c :: l) =
          uploadChunksLoop m size off sp (uploadStep m size off sp st c) l := rfl
      rw [this, ih]
      simp only [uploadStep]
      split_ifs <;> simp <;> omega

theorem uploadChunksLoop_append (m : Nat) (size off : Int) (sp : Bool)
    (st : UploadState) (a b : List (List Nat)) :
    uploadChunksLoop m size off sp st (a ++ b) =
      uploadChunksLoop m size off sp (uploadChunksLoop m size off sp st a) b := by
  simp [uploadChunksLoop, List.foldl_append]

/-- C2: in the upload loop starting from the recorded parts, the counter
`nextPartNum` takes the value `len(parts) + 1 + i` at the i-th received
chunk (strictly consecutive, starting at the count of already-recorded
parts plus one), and the chunk is uploaded as a part with exactly that
number if and only if `chunk.size ≥ MinPartSize`, or the chunk is final
(`size == offset + bytesUploaded + chunk.size`), or the manifest's
`isSinglePart` metadata is `"true"`; otherwise the chunk becomes the new
incomplete-part object and its size is the recorded
`incompletePartSize`. -/
theorem uploadParts_numbering (m : Nat) (size off : Int) (sp : Bool)
    (parts0 : List S3Part) (inc0 : Option (List Nat)) (cs : List (List Nat))
    (i : Nat) (hi : i < cs.length) :
    (uploadChunksLoop m size off sp (initUpload parts0 inc0) (cs.take i)).nextPartNum =
      parts0.length + 1 + i ∧
    uploadChunksLoop m size off sp (initUpload parts0 inc0) (cs.take (i + 1)) =
      uploadStep m size off sp
        (uploadChunksLoop m size off sp (initUpload parts0 inc0) (cs.take i))
        (cs.get ⟨i, hi⟩) ∧
    (∀ (st : UploadState) (c : List Nat),
      ((m ≤ c.length ∨ size = off + st.bytesUploaded + c.length ∨ sp = true) →
        uploadStep m size off sp st c =
          { st with
            parts := st.parts ++ [S3Part.mk st.nextPartNum c.length ""],
            bytesUploaded := st.bytesUploaded + c.length,
            nextPartNum := st.nextPartNum + 1 }) ∧
      (¬ (m ≤ c.length ∨ size = off + st.bytesUploaded + c.length ∨ sp = true) →
        uploadStep m size off sp st c =
          { st with
            incompleteObj := some c,
            bytesUploaded := st.bytesUploaded + c.length,
            nextPartNum := st.nextPartNum + 1 })) := by
  refine ⟨?_, ?_, ?_⟩
  · rw [uploadChunksLoop_nextPartNum]
    have hl : (cs.take i).length = i := by
      rw [List.length_take]
      omega
    rw [hl]
    simp [initUpload]
  · have hts : cs.take (i + 1) = cs.take i ++ [cs.get ⟨i, hi⟩] := by
      rw [List.take_succ, List.getElem?_eq_getElem hi]
      rfl
    rw [hts, uploadChunksLoop_append]
    rfl
  · intro st c
    constructor
    · intro h
      simp only [uploadStep]
      rw [if_pos h]
    · intro h
      simp only [uploadStep]
      rw [if_neg h]

/-- Witness for `uploadParts_numbering`: two chunks, the second (final,
1 byte) gets part number 2 = 0 recorded parts + 1 + 1. -/
theorem uploadParts_numbering_witness :
    (uploadChunksLoop 4 5 0 false (initUpload [] none)
      ([[9, 9, 9, 9], [7]].take 1)).nextPartNum = List.length ([] : List S3Part) + 1 + 1 ∧
    uploadChunksLoop 4 5 0 false (initUpload [] none) ([[9, 9, 9, 9], [7]].take 2) =
      uploadStep 4 5 0 false
        (uploadChunksLoop 4 5 0 false (initUpload [] none) ([[9, 9, 9, 9], [7]].take 1))
        ([[9, 9, 9, 9], [7]].get ⟨1, by decide⟩) :=
  ⟨(uploadParts_numbering 4 5 0 false [] none [[9, 9, 9, 9], [7]] 1 (by decide)).1,
    (uploadParts_numbering 4 5 0 false [] none [[9, 9, 9, 9], [7]] 1 (by decide)).2.1⟩

theorem uploadChunksLoop_bytes (m : Nat) (size off : Int) (sp : Bool)
    (st : UploadState) (l : List (List Nat)) :
    (uploadChunksLoop m size off sp st l).bytesUploaded =
      st.bytesUploaded + (l.map List.length).sum := by
  induction l generalizing st with
  | nil => simp [uploadChunksLoop]
  | cons c l ih =>
      have hstep : uploadChunksLoop m size off sp st (c :: l) =
          uploadChunksLoop m size off sp (uploadStep m size off sp st c) l := rfl
      rw [hstep, ih]
      simp only [uploadStep]
      split_ifs <;> simp <;> omega

/-- C1: on a `TransferFileChunk` call whose stored manifest records an
incomplete part of size `k > 0`, the engine's result equals the spec-side
`carryExpected` pipeline: the carried object's `k` bytes are prepended to
the input stream, the object is deleted from the destination (the upload
loop starts with no incomplete-part object), the working offset is
decremented by `k`, and the returned count is
`max(bytesUploaded - k, 0)` where `bytesUploaded` is the total size of
all chunks consumed from the prepended stream. -/
theorem transferFileChunk_carry (d : DestConfig) (st : DestState) (input : List Nat)
    (offset : Int) (k p : Nat)
    (hk : incompleteSize st = k) (hkpos : 0 < k)
    (hp : calcOptimalPartSize d st.info.size = Except.ok p) :
    transferFileChunk d st input offset =
      Except.ok (carryExpected d st input offset p) ∧
    (st.incompleteObj.getD []).length = k ∧
    (carryExpected d st input offset p).2 =
      ((produceChunks p (st.incompleteObj.getD [] ++ input)).map List.length).sum - k ∧
    ((carryExpected d st input offset p).2 : Int) =
      max ((((produceChunks p (st.incompleteObj.getD [] ++ input)).map
        List.length).sum : Int) - (k : Int)) 0 := by
  have hkpos2 : 0 < incompleteSize st := hk ▸ hkpos
  have hbytes : (carryExpected d st input offset p).2 =
      ((produceChunks p (st.incompleteObj.getD [] ++ input)).map List.length).sum - k := by
    simp only [carryExpected]
    rw [uploadChunksLoop_bytes]
    simp [initUpload, hk]
  refine ⟨?_, ?_, hbytes, ?_⟩
  · simp only [transferFileChunk, carryExpected, hp, hk, hkpos, hkpos2, if_true]
  · cases ho : st.incompleteObj with
    | none =>
        exfalso
        rw [incompleteSize, ho] at hk
        simp at hk
        omega
    | some l =>
        rw [incompleteSize, ho] at hk
        simpa using hk
  · rw [hbytes]
    omega

/-- Witness for `transferFileChunk_carry`: scenario S3 of the spec —
manifest size 5, carried tail "123" (3 bytes), 2 new bytes "45" at
offset 3; chunking with part size 4 uploads "1234" and the final "5" and
the returned count is 2. -/
theorem transferFileChunk_carry_witness :
    transferFileChunk scenarioCarryCfg scenarioCarryState [52, 53] 3 =
      Except.ok (carryExpected scenarioCarryCfg scenarioCarryState [52, 53] 3 4) ∧
    (carryExpected scenarioCarryCfg scenarioCarryState [52, 53] 3 4).2 = 2 := by
  have h := transferFileChunk_carry scenarioCarryCfg scenarioCarryState [52, 53] 3 3 4
    rfl (by decide) rfl
  refine ⟨h.1, ?_⟩
  rw [h.2.2.1]
  have e1 : produceChunks 4 (scenarioCarryState.incompleteObj.getD [] ++ [52, 53]) =
      [[49, 50, 51, 52], [53]] := by
    show produceChunks 4 [49, 50, 51, 52, 53] = [[49, 50, 51, 52], [53]]
    rw [produceChunks]
    norm_num
    rw [produceChunks]
    norm_num
    rw [produceChunks]
    norm_num
    intro hx
    exact absurd hx (by simp)
  rw [e1]
  decide

theorem uploadStep_sum_le (m : Nat) (size off : Int) (sp : Bool)
    (st : UploadState) (c : List Nat) :
    partsSizeSum (uploadStep m size off sp st c).parts +
        optLen (uploadStep m size off sp st c).incompleteObj ≤
      partsSizeSum st.parts + optLen st.incompleteObj + c.length := by
  simp only [uploadStep]
  split_ifs with h
  · simp only [partsSizeSum, optLen, List.map_append, List.sum_append, List.map_cons,
      List.sum_cons, List.map_nil, List.sum_nil]
    omega
  · have hredc : optLen (some c) = c.length := rfl
    simp only [partsSizeSum, optLen] at hredc ⊢
    rw [hredc]
    omega

theorem uploadChunksLoop_sum_le (m : Nat) (size off : Int) (sp : Bool)
    (st : UploadState) (l : List (List Nat)) :
    partsSizeSum (uploadChunksLoop m size off sp st l).parts +
        optLen (uploadChunksLoop m size off sp st l).incompleteObj ≤
      partsSizeSum st.parts + optLen st.incompleteObj + (l.map List.length).sum := by
  induction l generalizing st with
  | nil => simp [uploadChunksLoop]
  | cons c l ih =>
      have hstep : uploadChunksLoop m size off sp st (c :: l) =
          uploadChunksLoop m size off sp (uploadStep m size off sp st c) l := rfl
      rw [hstep]
      have h1 := ih (uploadStep m size off sp st c)
      have h2 := uploadStep_sum_le m size off sp st c
      simp only [List.map_cons, List.sum_cons]
      omega

theorem produceChunks_len_sum (p : Nat) (src : List Nat) :
    ((produceChunks p src).map List.length).sum ≤ src.length := by
  by_cases h : p = 0 ∨ src = []
  · rw [produceChunks, if_pos h]
    simp
  · rw [produceChunks, if_neg h]
    have hp0 : p ≠ 0 := fun hx => h (Or.inl hx)
    have hs0 : src ≠ [] := fun hx => h (Or.inr hx)
    have ih := produceChunks_len_sum p (src.drop p)
    have hlen : 0 < src.length := List.length_pos.2 hs0
    rw [List.length_drop] at ih
    simp only [List.map_cons, List.sum_cons, List.length_take]
    omega
termination_by src.length
decreasing_by
  have hs0 : src ≠ [] := fun hx => h (Or.inr hx)
  have hp0 : p ≠ 0 := fun hx => h (Or.inl hx)
  have hlen : 0 < src.length := List.length_pos.2 hs0
  simp only [List.length_drop]
  omega

theorem transferFileChunk_nocarry (d : DestConfig) (st : DestState) (input : List Nat)
    (offset : Int) (p : Nat)
    (hk0 : incompleteSize st = 0)
    (hp : calcOptimalPartSize d st.info.size = Except.ok p) :
    transferFileChunk d st input offset =
      Except.ok
        (let ust := uploadChunksLoop d.minPartSize (st.info.size : Int) offset
            st.info.isSinglePart (initUpload st.parts st.incompleteObj)
            (produceChunks p input)
         ({ st with parts := ust.parts, incompleteObj := ust.incompleteObj },
          ust.bytesUploaded)) := by
  simp only [transferFileChunk, hp, hk0]
  norm_num

theorem transferFileChunk_err (d : DestConfig) (st : DestState) (input : List Nat)
    (offset : Int) (e : String)
    (hp : calcOptimalPartSize d st.info.size = Except.error e) :
    transferFileChunk d st input offset = Except.error e := by
  simp only [transferFileChunk, hp]

theorem reachable_sum_le {d : DestConfig} {st : DestState} (h : Reachable d st) :
    st.completed = true ∨
      partsSizeSum st.parts + incompleteSize st ≤ st.info.size := by
  induction h with
  | created hcf =>
      right
      rename_i size0 modTime0 startTime0 stc
      unfold createFile at hcf
      by_cases hsz : d.maxObjectSize < size0
      · rw [if_pos hsz] at hcf
        exact absurd hcf (by simp)
      · rw [if_neg hsz] at hcf
        simp only [Except.ok.injEq] at hcf
        rw [← hcf]
        simp [partsSizeSum, incompleteSize]
  | chunk hst hnc hlen htr ih =>
      right
      rename_i st0 st2 input n
      cases hcp : calcOptimalPartSize d st0.info.size with
      | error e =>
          rw [transferFileChunk_err d st0 input _ e hcp] at htr
          exact absurd htr (by simp)
      | ok p =>
          by_cases hk0 : incompleteSize st0 = 0
          · rw [transferFileChunk_nocarry d st0 input _ p hk0 hcp] at htr
            simp only [Except.ok.injEq, Prod.mk.injEq] at htr
            obtain ⟨h1, h2⟩ := htr
            subst h1
            show partsSizeSum (uploadChunksLoop d.minPartSize (st0.info.size : Int)
                ((getFileInfo st0).offset : Int) st0.info.isSinglePart
                (initUpload st0.parts st0.incompleteObj) (produceChunks p input)).parts +
              optLen (uploadChunksLoop d.minPartSize (st0.info.size : Int)
                ((getFileInfo st0).offset : Int) st0.info.isSinglePart
                (initUpload st0.parts st0.incompleteObj)
                (produceChunks p input)).incompleteObj ≤ st0.info.size
            have hloop := uploadChunksLoop_sum_le d.minPartSize (st0.info.size : Int)
              ((getFileInfo st0).offset : Int) st0.info.isSinglePart
              (initUpload st0.parts st0.incompleteObj) (produceChunks p input)
            have hchl := produceChunks_len_sum p input
            have hip : (initUpload st0.parts st0.incompleteObj).parts = st0.parts := rfl
            have hio : optLen (initUpload st0.parts st0.incompleteObj).incompleteObj =
                incompleteSize st0 := rfl
            rw [hip, hio] at hloop
            omega
          · have hcarry := transferFileChunk_carry d st0 input
              ((getFileInfo st0).offset : Int) (incompleteSize st0) p rfl
              (Nat.pos_of_ne_zero hk0) hcp
            rw [hcarry.1] at htr
            simp only [Except.ok.injEq] at htr
            have h1 : st2 = (carryExpected d st0 input
                ((getFileInfo st0).offset : Int) p).1 := by
              rw [htr]
            subst h1
            show partsSizeSum (uploadChunksLoop d.minPartSize (st0.info.size : Int)
                (((getFileInfo st0).offset : Int) - (incompleteSize st0 : Int))
                st0.info.isSinglePart (initUpload st0.parts none)
                (produceChunks p (st0.incompleteObj.getD [] ++ input))).parts +
              optLen (uploadChunksLoop d.minPartSize (st0.info.size : Int)
                (((getFileInfo st0).offset : Int) - (incompleteSize st0 : Int))
                st0.info.isSinglePart (initUpload st0.parts none)
                (produceChunks p (st0.incompleteObj.getD [] ++ input))).incompleteObj ≤
              st0.info.size
            have hloop := uploadChunksLoop_sum_le d.minPartSize (st0.info.size : Int)
              (((getFileInfo st0).offset : Int) - (incompleteSize st0 : Int))
              st0.info.isSinglePart (initUpload st0.parts none)
              (produceChunks p (st0.incompleteObj.getD [] ++ input))
            have hchl := produceChunks_len_sum p (st0.incompleteObj.getD [] ++ input)
            have hpre : (st0.incompleteObj.getD [] ++ input).length =
                incompleteSize st0 + input.length := by
              rw [List.length_append, hcarry.2.1]
            have hip : (initUpload st0.parts none).parts = st0.parts := rfl
            have hio : optLen (initUpload st0.parts none).incompleteObj = 0 := rfl
            rw [hip, hio] at hloop
            rw [hpre] at hchl
            omega
  | finalize hst hnc ih =>
      rename_i st0 now
      have hsum : partsSizeSum st0.parts + incompleteSize st0 ≤ st0.info.size := by
        rcases ih with hci | hs
        · rw [hnc] at hci
          exact absurd hci (by simp)
        · exact hs
      by_cases hc : partsSizeSum (paddedParts st0) = st0.info.size
      · rw [finalizeTransfer_eq_of_ok now st0 hc]
        left
        rfl
      · rw [finalizeTransfer_eq_of_ne now st0 hc]
        right
        have hpad := paddedParts_sum st0
        show partsSizeSum (paddedParts st0) + incompleteSize st0 ≤ st0.info.size
        omega

/-- C6: for every destination state reachable through the engine's
operations, the manifest produced by `GetFileInfo` satisfies
`offset ≤ size`: the aggregated offset — the sum of all completed part
sizes plus the incomplete-part size — never exceeds the recorded size. -/
theorem getFileInfo_offset_le_size {d : DestConfig} {st : DestState}
    (h : Reachable d st) : (getFileInfo st).offset ≤ (getFileInfo st).size := by
  have hinv := reachable_sum_le h
  unfold getFileInfo
  cases hc : st.completed
  · rw [hc] at hinv
    rcases hinv with hci | hs
    · exact absurd hci (by simp)
    · simpa using hs
  · simp

/-- Witness for `getFileInfo_offset_le_size` at the state `CreateFile`
produces for a 10-byte source under the reference constants. -/
theorem getFileInfo_offset_le_size_witness :
    (getFileInfo createdExample).offset ≤ (getFileInfo createdExample).size :=
  getFileInfo_offset_le_size (d := referenceDest)
    (Reachable.created
      (show createFile referenceDest 10 0 0 = Except.ok createdExample from rfl))

end Fxfer
